import Mathlib

/-!
Shallow embedding of the aggregation-and-reporting pipeline of `bot.py`
(AktienNewsBot): watchlist store, quote provider, news providers, report
composition and the scheduled daily report.  Upstream I/O (yfinance,
feedparser, sqlite, Telegram) is modelled by explicit inputs: a fallible
upstream call becomes an `Except` value, the sqlite table becomes a list of
rows, and outbound messages are collected in a list.  Python `float`
formatting is embedded over `ℚ`; the rounding used by `%.2f` is modelled as
round-half-up, which agrees with Python on every value evaluated here (no
half-way ties arise).
-/

namespace AktienBot

/-- One row of the sqlite `watchlist` table: `(chat_id, ticker, name, added)`
with primary key `(chat_id, ticker)`. -/
structure Row where
  chat_id : String
  ticker : String
  name : String
  added : String
deriving DecidableEq, Repr

/-- An entry as returned by `get_watchlist` (the `SELECT ticker, name, added`
projection). -/
structure WLEntry where
  ticker : String
  name : String
  added : String
deriving DecidableEq, Repr

/-- The fields of the upstream `yf.Ticker(t).info` dict that `get_stock_info`
reads.  `none` models an absent key; Python numeric truthiness makes `0`
behave like an absent value where the code tests truthiness. -/
structure UpInfo where
  regularMarketPrice : Option ℚ
  currentPrice : Option ℚ
  previousClose : Option ℚ
  shortName : Option String
  currency : Option String
  marketCap : Option ℚ
  trailingPE : Option ℚ
  fiftyTwoWeekHigh : Option ℚ
  fiftyTwoWeekLow : Option ℚ
  volume : Option ℚ
  sector : Option String
deriving DecidableEq, Repr

/-- The dict built by `get_stock_info` on success. -/
structure StockQuote where
  name : String
  ticker : String
  price : ℚ
  change : ℚ
  change_pct : ℚ
  currency : String
  market_cap : Option ℚ
  pe_ratio : Option ℚ
  w52_high : Option ℚ
  w52_low : Option ℚ
  volume : Option ℚ
  sector : String
deriving DecidableEq, Repr

/-- Python `str.upper()` (ASCII range, which covers ticker symbols), written
over the character list so that it reduces in the kernel. -/
def strUpper (s : String) : String :=
  String.mk (s.data.map Char.toUpper)

/-- Python truthiness of an optional numeric field: `None` and `0` are falsy. -/
def truthyQ : Option ℚ → Bool
  | none => false
  | some x => !(x == 0)

/-- `a or b` on an optional numeric and a default, as in
`info.get("currentPrice") or info.get("regularMarketPrice", 0)`. -/
def orQ (a : Option ℚ) (b : ℚ) : ℚ :=
  match a with
  | none => b
  | some x => if x == 0 then b else x

/-- `get_stock_info` (bot.py lines 84-111): the whole body runs inside
`try/except`, so an upstream failure of any kind (unknown symbol, network
error, malformed payload) arrives as `Except.error` and yields `none`. -/
def get_stock_info (ticker : String) (upstream : Except String UpInfo) :
    Option StockQuote :=
  match upstream with
  | .error _ => none
  | .ok info =>
    if !truthyQ info.regularMarketPrice && !truthyQ info.currentPrice then
      none
    else
      let price := orQ info.currentPrice (info.regularMarketPrice.getD 0)
      let prev_close := info.previousClose.getD price
      let change := price - prev_close
      let change_pct := if prev_close == 0 then 0 else change / prev_close * 100
      some {
        name := info.shortName.getD ticker
        ticker := strUpper ticker
        price := price
        change := change
        change_pct := change_pct
        currency := info.currency.getD "USD"
        market_cap := info.marketCap
        pe_ratio := info.trailingPE
        w52_high := info.fiftyTwoWeekHigh
        w52_low := info.fiftyTwoWeekLow
        volume := info.volume
        sector := info.sector.getD "–"
      }

/-- Round-half-up to the nearest integer: `⌊x + 1/2⌋` computed on the
numerator/denominator. -/
def roundHalfUp (x : ℚ) : ℤ :=
  Int.fdiv (2 * x.num + (x.den : ℤ)) (2 * (x.den : ℤ))

/-- Render a natural number `< 100` as exactly two digits. -/
def twoDigits (k : Nat) : String :=
  (if k < 10 then "0" else "") ++ toString k

/-- Insert a `,` after every third digit, working over the reversed digit
list; `k` counts digits emitted since the last separator. -/
def commasRev : List Char → Nat → List Char
  | [], _ => []
  | c :: cs, k =>
    if k == 3 then ',' :: c :: commasRev cs 1 else c :: commasRev cs (k + 1)

/-- Thousands grouping of a digit string, as `format(n, ",d")` does. -/
def groupDigits (s : String) : String :=
  String.mk (commasRev s.toList.reverse 0).reverse

/-- Fixed two-decimal rendering of a rational, as Python `f"{x:.2f}"`. -/
def fixed2 (x : ℚ) : String :=
  let n := roundHalfUp (x * 100)
  let sign := if n < 0 then "-" else ""
  let m := n.natAbs
  sign ++ toString (m / 100) ++ "." ++ twoDigits (m % 100)

/-- Fixed two-decimal rendering with thousands separators, as Python
`f"{x:,.2f}"`. -/
def fixed2Grouped (x : ℚ) : String :=
  let n := roundHalfUp (x * 100)
  let sign := if n < 0 then "-" else ""
  let m := n.natAbs
  sign ++ groupDigits (toString (m / 100)) ++ "." ++ twoDigits (m % 100)

/-- The `symbols` lookup in `format_price` (bot.py lines 113-116). -/
def currencySym (currency : String) : String :=
  if currency == "USD" then "$"
  else if currency == "EUR" then "€"
  else if currency == "GBP" then "£"
  else if currency == "CHF" then "CHF "
  else currency ++ " "

/-- `format_price` (bot.py lines 113-116). -/
def format_price (price : ℚ) (currency : String) : String :=
  currencySym currency ++ fixed2Grouped price

/-- `format_change` (bot.py lines 118-121). -/
def format_change (change : ℚ) (pct : ℚ) : String :=
  let arrow := if 0 ≤ change then "🟢 ▲" else "🔴 ▼"
  let sign := if 0 ≤ change then "+" else ""
  arrow ++ " " ++ sign ++ fixed2 change ++ " (" ++ sign ++ fixed2 pct ++ "%)"

/-- One upstream item of `yf.Ticker(t).news`: the nested dict fields that
`get_stock_news` reads (`content.title`, the top-level `title` fallback,
`content.summary`, `content.provider.displayName`, `content.canonicalUrl.url`). -/
structure RawNewsItem where
  contentTitle : Option String
  topTitle : Option String
  summary : Option String
  provider : Option String
  url : Option String
deriving DecidableEq, Repr

/-- A news dict as built by `get_stock_news` / `get_general_news`. -/
structure NewsItem where
  title : String
  summary : String
  url : String
  source : String
deriving DecidableEq, Repr

/-- `content.get("title") or item.get("title", "")`: the top-level title is
used when the content title is absent or empty (Python string falsiness). -/
def extractTitle (item : RawNewsItem) : String :=
  match item.contentTitle with
  | none => item.topTitle.getD ""
  | some t => if t == "" then item.topTitle.getD "" else t

/-- The dict appended for one titled item in `get_stock_news`. -/
def mkNewsItem (item : RawNewsItem) : NewsItem :=
  { title := extractTitle item
    summary := item.summary.getD ""
    url := item.url.getD ""
    source := item.provider.getD "" }

/-- The extraction loop of `get_stock_news`: one pass over the (already
sliced) upstream items, appending a dict only when the title is non-empty. -/
def newsLoop : List RawNewsItem → List NewsItem
  | [] => []
  | item :: rest =>
    if extractTitle item == "" then newsLoop rest
    else mkNewsItem item :: newsLoop rest

/-- `get_stock_news` (bot.py lines 123-146): the body runs inside
`try/except` returning `[]` on failure; the loop iterates `news[:limit]`. -/
def get_stock_news (upstream : Except String (List RawNewsItem)) (limit : Nat) :
    List NewsItem :=
  match upstream with
  | .error _ => []
  | .ok news => newsLoop (news.take limit)

/-- One RSS entry as read by `get_general_news`. -/
structure FeedEntry where
  title : Option String
  link : Option String
  summary : Option String
deriving DecidableEq, Repr

/-- A configured feed source: its name and the outcome of parsing its URL
(`Except.error` models a `feedparser` failure caught by the per-source
`try/except`). -/
structure FeedSource where
  sourceName : String
  entries : Except String (List FeedEntry)

/-- The dict appended for one feed entry in `get_general_news`; the summary
is sliced to 200 characters. -/
def entryToItem (source : String) (e : FeedEntry) : NewsItem :=
  { title := e.title.getD ""
    url := e.link.getD ""
    source := source
    summary := (e.summary.getD "").take 200 }

/-- What one source contributes to `all_news`: its first three entries, or
nothing when its fetch/parse failed. -/
def feedContribution (f : FeedSource) : List NewsItem :=
  match f.entries with
  | .error _ => []
  | .ok es => (es.take 3).map (entryToItem f.sourceName)

/-- The outer loop of `get_general_news` over `RSS_FEEDS.items()`,
accumulating `all_news` in source-declaration order. -/
def collectFeeds : List FeedSource → List NewsItem
  | [] => []
  | f :: rest => feedContribution f ++ collectFeeds rest

/-- `get_general_news` (bot.py lines 148-163). -/
def get_general_news (feeds : List FeedSource) (limit : Nat) : List NewsItem :=
  (collectFeeds feeds).take limit

/-- `add_to_watchlist` (bot.py lines 66-72): `INSERT OR REPLACE` on primary
key `(chat_id, ticker)`, with the ticker uppercased; modelled as deleting any
row with the same key and appending the new row. -/
def add_to_watchlist (db : List Row) (chat_id ticker name now : String) :
    List Row :=
  db.filter (fun r => !(r.chat_id == chat_id && r.ticker == strUpper ticker))
    ++ [⟨chat_id, strUpper ticker, name, now⟩]

/-- `remove_from_watchlist` (bot.py lines 74-81): returns the updated table
and whether a row was deleted. -/
def remove_from_watchlist (db : List Row) (chat_id ticker : String) :
    List Row × Bool :=
  let kept := db.filter (fun r => !(r.chat_id == chat_id && r.ticker == strUpper ticker))
  (kept, kept.length < db.length)

/-- The `ORDER BY ticker` relation of `get_watchlist`. -/
def rowLE (a b : Row) : Prop := a.ticker ≤ b.ticker

instance : DecidableRel rowLE := fun a b =>
  inferInstanceAs (Decidable (a.ticker ≤ b.ticker))

instance : IsTotal Row rowLE := ⟨fun a b => le_total a.ticker b.ticker⟩

instance : IsTrans Row rowLE := ⟨fun _ _ _ h h2 => le_trans h h2⟩

/-- `get_watchlist` (bot.py lines 58-64): rows of the chat, ordered by
ticker, projected to `(ticker, name, added)`. -/
def get_watchlist (db : List Row) (chat_id : String) : List WLEntry :=
  ((db.filter (fun r => r.chat_id == chat_id)).insertionSort rowLE).map
    (fun r => ⟨r.ticker, r.name, r.added⟩)

/-- One block of the quotes section of `report_command` (bot.py lines
420-428): each loop iteration appends exactly one chunk to the report text,
either a rendered quote or the explicit `nicht verfügbar` marker. -/
inductive QuoteBlock where
  | available (name ticker priceStr changeStr : String) (up : Bool)
  | notAvailable (ticker : String)
deriving DecidableEq, Repr

/-- The ticker a block is about. -/
def QuoteBlock.tickerOf : QuoteBlock → String
  | .available _ t _ _ _ => t
  | .notAvailable t => t

/-- The exact text a block contributes to the report. -/
def QuoteBlock.render : QuoteBlock → String
  | .available name t p c up =>
    (if up then "🟢" else "🔴") ++ " *" ++ name ++ "* (" ++ t ++ ")\n   "
      ++ p ++ "  " ++ c ++ "\n\n"
  | .notAvailable t => "❓ `" ++ t ++ "` – nicht verfügbar\n\n"

/-- The block produced for one watchlist item in `report_command`; `fetch`
stands for `get_stock_info` applied to the item's ticker. -/
def reportBlockFor (fetch : String → Option StockQuote) (item : WLEntry) :
    QuoteBlock :=
  match fetch item.ticker with
  | some info =>
    .available info.name item.ticker (format_price info.price info.currency)
      (format_change info.change info.change_pct) (decide (0 ≤ info.change))
  | none => .notAvailable item.ticker

/-- The quotes loop of `report_command` (bot.py lines 420-428). -/
def reportQuoteBlocks (fetch : String → Option StockQuote) :
    List WLEntry → List QuoteBlock
  | [] => []
  | item :: rest => reportBlockFor fetch item :: reportQuoteBlocks fetch rest

/-- The line `daily_report` appends for one successfully fetched quote
(bot.py line 526). -/
def dailyLine (info : StockQuote) : String :=
  (if 0 ≤ info.change then "🟢" else "🔴") ++ " *" ++ info.name ++ "*: "
    ++ format_price info.price info.currency ++ " "
    ++ format_change info.change info.change_pct ++ "\n"

/-- The quotes loop of `daily_report` (bot.py lines 520-526): a symbol whose
fetch fails contributes nothing, not even a marker. -/
def dailyQuoteLines (fetch : String → Option StockQuote) :
    List WLEntry → List String
  | [] => []
  | item :: rest =>
    match fetch item.ticker with
    | some info => dailyLine info :: dailyQuoteLines fetch rest
    | none => dailyQuoteLines fetch rest

/-- One outbound Telegram message. -/
structure Message where
  chat : String
  text : String
deriving DecidableEq, Repr

/-- The numbered headline list of the daily report's news message
(bot.py lines 534-537), starting at index `i`. -/
def newsLines (i : Nat) : List NewsItem → String
  | [] => ""
  | item :: rest =>
    let title := item.title.take 100
    (if item.url == "" then "*" ++ toString i ++ ".* " ++ title ++ "\n\n"
     else "*" ++ toString i ++ ".* [" ++ title ++ "](" ++ item.url ++ ")\n\n")
      ++ newsLines (i + 1) rest

/-- `daily_report` (bot.py lines 504-539) as the list of messages it sends:
nothing when `CHAT_ID` is unset or the watchlist is empty, otherwise the
quotes message followed by a general-news message when news are available.
`today` stands for the formatted current date. -/
def daily_report (chatID : String) (db : List Row)
    (fetch : String → Option StockQuote) (feeds : List FeedSource)
    (today : String) : List Message :=
  if chatID == "" then []
  else
    let wl := get_watchlist db chatID
    if wl.isEmpty then []
    else
      let text := "🌅 *Guten Morgen! Watchlist-Report*\n_" ++ today ++ "_\n\n"
        ++ String.join (dailyQuoteLines fetch wl)
      let news := get_general_news feeds 5
      if news.isEmpty then [⟨chatID, text⟩]
      else [⟨chatID, text⟩,
            ⟨chatID, "📰 *Top Finanz-News heute*\n\n" ++ newsLines 1 news⟩]

/-- The state of the scheduled pipeline around one cron firing. -/
inductive PipeState where
  | idle
  | running
deriving DecidableEq, Repr

/-- One firing of the daily cron trigger: the job runs to completion and the
pipeline is idle again afterwards; the sends are those of `daily_report`. -/
def daily_report_fire (chatID : String) (db : List Row)
    (fetch : String → Option StockQuote) (feeds : List FeedSource)
    (today : String) : PipeState × List Message :=
  (PipeState.idle, daily_report chatID db fetch feeds today)

/-! ## Concrete fixtures used by witnesses and counterexamples -/

/-- An upstream payload with both price fields present and nonzero. -/
def infoApple : UpInfo :=
  ⟨some 148, some 150, some 148, some "Apple", some "USD",
   none, none, none, none, none, none⟩

/-- The quote `get_stock_info "aapl"` builds from `infoApple`. -/
def quoteApple : StockQuote :=
  ⟨"Apple", "AAPL", 150, 2, 50 / 37, "USD", none, none, none, none, none, "–"⟩

/-- An upstream payload whose previous close is present but zero. -/
def infoPrevZero : UpInfo :=
  ⟨some 148, some 150, some 0, none, none, none, none, none, none, none, none⟩

/-- The quote built from `infoPrevZero`. -/
def quotePrevZero : StockQuote :=
  ⟨"x", "X", 150, 150, 0, "USD", none, none, none, none, none, "–"⟩

/-- An upstream payload with both price fields present but zero. -/
def infoBothZero : UpInfo :=
  ⟨some 0, some 0, some 10, none, none, none, none, none, none, none, none⟩

/-- An upstream payload with every field absent. -/
def infoEmpty : UpInfo :=
  ⟨none, none, none, none, none, none, none, none, none, none, none⟩

/-! ## C2, C5, C10 — `get_stock_info` -/

/-- C2: for every quote payload, when `previous_close` is 0 or absent the
computed `change_pct` equals 0; the guard `if prev_close` prevents any
division by zero (over `ℚ` no NaN/∞ exists, and the division branch is
taken only for a nonzero divisor). -/
theorem change_pct_zero_of_degenerate_prev_close :
    ∀ t info q, get_stock_info t (.ok info) = some q →
      info.previousClose = none ∨ info.previousClose = some 0 →
      q.change_pct = 0 := by
  intro t info q hq hprev
  simp only [get_stock_info] at hq
  split at hq
  · exact absurd hq (by simp)
  · rcases hprev with h | h <;> rw [h] at hq <;>
      simp only [Option.getD, Option.some.injEq] at hq <;> subst hq <;>
      simp

/-- Witness for C2 at `infoPrevZero`. -/
theorem change_pct_zero_of_degenerate_prev_close_witness :
    get_stock_info "x" (.ok infoPrevZero) = some quotePrevZero ∧
    quotePrevZero.change_pct = 0 := by
  have h : get_stock_info "x" (.ok infoPrevZero) = some quotePrevZero := by
    simp only [get_stock_info, infoPrevZero, quotePrevZero, truthyQ, orQ,
      Option.getD, Option.some.injEq, StockQuote.mk.injEq]
    norm_num
    decide
  exact ⟨h, change_pct_zero_of_degenerate_prev_close "x" infoPrevZero
    quotePrevZero h (Or.inr rfl)⟩

/-- C5: `get_stock_info` yields `absent` for every caught upstream failure
(unknown symbol, unreachable source, malformed payload — all surfacing as the
`except` branch) and for payloads lacking a truthy current or
regular-market price; being a total Lean function into `Option`, it never
propagates an exception. -/
theorem get_stock_info_absent_on_failure :
    (∀ t e, get_stock_info t (.error e) = none) ∧
    (∀ t info, truthyQ info.regularMarketPrice = false →
      truthyQ info.currentPrice = false →
      get_stock_info t (.ok info) = none) := by
  constructor
  · intro t e
    rfl
  · intro t info h1 h2
    simp [get_stock_info, h1, h2]

/-- Witness for C5: a network failure and an all-absent payload. -/
theorem get_stock_info_absent_on_failure_witness :
    get_stock_info "AAPL" (.error "connection timed out") = none ∧
    get_stock_info "ZZZZ" (.ok infoEmpty) = none :=
  ⟨get_stock_info_absent_on_failure.1 "AAPL" "connection timed out",
   get_stock_info_absent_on_failure.2 "ZZZZ" infoEmpty rfl rfl⟩

/-- C10: a payload whose current and regular-market prices are both present
but zero is treated exactly like an unknown symbol (`None`), and more
generally no successfully returned quote ever carries price 0. -/
theorem zero_priced_payload_absent :
    (∀ t info, info.regularMarketPrice = some 0 → info.currentPrice = some 0 →
      get_stock_info t (.ok info) = none) ∧
    (∀ t info q, get_stock_info t (.ok info) = some q → q.price ≠ 0) := by
  constructor
  · intro t info h1 h2
    simp [get_stock_info, truthyQ, h1, h2]
  · intro t info q hq
    simp only [get_stock_info] at hq
    split at hq
    · exact absurd hq (by simp)
    · rename_i hguard
      simp only [Option.some.injEq] at hq
      subst hq
      show orQ info.currentPrice (info.regularMarketPrice.getD 0) ≠ 0
      rcases hcp : info.currentPrice with _ | x <;>
        rcases hrm : info.regularMarketPrice with _ | y
      · simp [truthyQ, hcp, hrm] at hguard
      · simp only [truthyQ, hcp, hrm] at hguard
        simp only [orQ, Option.getD]
        simpa using hguard
      · simp only [truthyQ, hcp, hrm] at hguard
        simp only [orQ, Option.getD]
        simp only [Bool.not_false, Bool.true_and, Bool.not_not] at hguard
        have hx : ¬ x = 0 := by simpa using hguard
        simp only [beq_iff_eq, if_neg hx]
        exact hx
      · simp only [truthyQ, hcp, hrm, Bool.not_not, Bool.and_eq_true,
          beq_iff_eq, not_and] at hguard
        simp only [orQ, Option.getD]
        by_cases hx : x = 0
        · simp only [beq_iff_eq, if_pos hx]
          exact fun hy => hguard hy hx
        · simp only [beq_iff_eq, if_neg hx]
          exact hx

/-- Witness for C10: both price fields present-but-zero give `absent`; the
successful fetch from `infoApple` carries a nonzero price. -/
theorem zero_priced_payload_absent_witness :
    get_stock_info "z" (.ok infoBothZero) = none ∧ quoteApple.price ≠ 0 := by
  have h : get_stock_info "aapl" (.ok infoApple) = some quoteApple := by
    simp only [get_stock_info, infoApple, quoteApple, truthyQ, orQ, Option.getD,
      Option.some.injEq, StockQuote.mk.injEq]
    norm_num
    decide
  exact ⟨zero_priced_payload_absent.1 "z" infoBothZero rfl rfl,
    zero_priced_payload_absent.2 "aapl" infoApple quoteApple h⟩

/-! ## C9 — the report composer's formatting -/

/-- `roundHalfUp` is `⌊x + 1/2⌋`. -/
theorem roundHalfUp_eq_floor (x : ℚ) : roundHalfUp x = ⌊x + 1 / 2⌋ := by
  have hden : ((x.den : ℚ)) ≠ 0 := by
    exact_mod_cast x.den_nz
  have hx : x + 1 / 2 = ((2 * x.num + (x.den : ℤ) : ℤ) : ℚ) / ((2 * x.den : ℕ) : ℚ) := by
    have hnum : (x.num : ℚ) = x * (x.den : ℚ) :=
      (div_eq_iff hden).mp (Rat.num_div_den x)
    push_cast
    field_simp
    rw [hnum]
    ring
  rw [roundHalfUp, hx, Rat.floor_intCast_div_natCast,
    Int.fdiv_eq_ediv _ (by positivity)]
  norm_num

/-- Evaluation rule for `roundHalfUp` at a known answer. -/
theorem roundHalfUp_eq_of (x : ℚ) (n : ℤ) (h1 : (n : ℚ) ≤ x + 1 / 2)
    (h2 : x + 1 / 2 < n + 1) : roundHalfUp x = n := by
  rw [roundHalfUp_eq_floor]
  exact Int.floor_eq_iff.mpr ⟨h1, h2⟩

/-- C9: for the quote built from `infoApple` (price 150, previous close 148,
currency USD) the composer renders the price as `$150.00` and the change as
the direction marker followed by `+2.00 (+1.35%)`; thousands grouping is
exercised by the third equation.  (`format_price` and `format_change` are
Lean functions of their arguments, hence deterministic and pure.) -/
theorem composer_renders_quote :
    format_price quoteApple.price quoteApple.currency = "$150.00" ∧
    format_change quoteApple.change quoteApple.change_pct
      = "🟢 ▲ " ++ "+2.00 (+1.35%)" ∧
    format_price (1234567891 / 1000) "USD" = "$1,234,567.89" := by
  have h1 : roundHalfUp ((150 : ℚ) * 100) = 15000 :=
    roundHalfUp_eq_of _ _ (by norm_num) (by norm_num)
  have h2 : roundHalfUp ((2 : ℚ) * 100) = 200 :=
    roundHalfUp_eq_of _ _ (by norm_num) (by norm_num)
  have h3 : roundHalfUp ((50 / 37 : ℚ) * 100) = 135 :=
    roundHalfUp_eq_of _ _ (by norm_num) (by norm_num)
  have h4 : roundHalfUp ((1234567891 / 1000 : ℚ) * 100) = 123456789 :=
    roundHalfUp_eq_of _ _ (by norm_num) (by norm_num)
  refine ⟨?_, ?_, ?_⟩
  · simp only [quoteApple, format_price, fixed2Grouped, h1]
    decide
  · have hc : (0 : ℚ) ≤ 2 := by norm_num
    simp only [quoteApple, format_change, fixed2, h2, h3, if_pos hc]
    decide
  · simp only [format_price, fixed2Grouped, h4]
    decide

/-! ## C8 — scheduled trigger with no recipient -/

/-- C8: with no configured recipient (`CHAT_ID` empty) the daily trigger
performs zero sends, touches no state, and the pipeline returns to idle. -/
theorem scheduled_trigger_noop_without_recipient :
    ∀ db fetch feeds today,
      daily_report_fire "" db fetch feeds today = (PipeState.idle, []) := by
  intro db fetch feeds today
  rfl

/-! ## C6 — general news aggregation -/

/-- Three titled entries with a given prefix. -/
def demoEntries (p : String) : List FeedEntry :=
  [⟨some (p ++ "1"), none, none⟩, ⟨some (p ++ "2"), none, none⟩,
   ⟨some (p ++ "3"), none, none⟩]

/-- Four configured sources, each yielding three items. -/
def demoFeeds4 : List FeedSource :=
  [⟨"S1", .ok (demoEntries "a")⟩, ⟨"S2", .ok (demoEntries "b")⟩,
   ⟨"S3", .ok (demoEntries "c")⟩, ⟨"S4", .ok (demoEntries "d")⟩]

/-- C6: `get_general_news` is the concatenation, in source-declaration
order, of each feed's contribution (at most 3 items per feed), truncated to
`limit`; with 4 sources of 3 items and `limit = 8` exactly 8 items come back
in declaration order, cutting the third source's contribution. -/
theorem general_news_merge_truncate :
    (∀ feeds limit, get_general_news feeds limit
      = ((feeds.map feedContribution).flatten).take limit) ∧
    (∀ f, (feedContribution f).length ≤ 3) ∧
    get_general_news demoFeeds4 8 =
      [⟨"a1", "", "", "S1"⟩, ⟨"a2", "", "", "S1"⟩, ⟨"a3", "", "", "S1"⟩,
       ⟨"b1", "", "", "S2"⟩, ⟨"b2", "", "", "S2"⟩, ⟨"b3", "", "", "S2"⟩,
       ⟨"c1", "", "", "S3"⟩, ⟨"c2", "", "", "S3"⟩] := by
  refine ⟨?_, ?_, by set_option maxRecDepth 4000 in decide⟩
  · intro feeds limit
    unfold get_general_news
    congr 1
    induction feeds with
    | nil => rfl
    | cons f rest ih => simp [collectFeeds, ih]
  · intro f
    unfold feedContribution
    cases f.entries with
    | error e => simp
    | ok es =>
      simp only [List.length_map, List.length_take]
      exact min_le_left _ _

/-! ## C3, C4 — per-symbol news fetching -/

/-- The extraction loop keeps exactly the titled items, in order. -/
theorem newsLoop_eq_filter (l : List RawNewsItem) :
    newsLoop l = (l.filter (fun i => extractTitle i != "")).map mkNewsItem := by
  induction l with
  | nil => rfl
  | cons item rest ih =>
    cases h : extractTitle item == ""
    · have hne : extractTitle item ≠ "" := by simpa using h
      simp [newsLoop, List.filter_cons, h, hne, ih]
    · have heq : extractTitle item = "" := by simpa using h
      simp [newsLoop, List.filter_cons, h, heq, ih]

/-- C3 (amended): the slice to `limit` happens before title filtering, so
the result is the titled items among the first `limit` upstream entries —
hence still at most `limit` items, but early untitled entries reduce the
count below `limit`. -/
theorem stock_news_filters_within_slice :
    ∀ upstream limit,
      get_stock_news (.ok upstream) limit
        = ((upstream.take limit).filter
            (fun i => extractTitle i != "")).map mkNewsItem ∧
      (get_stock_news (.ok upstream) limit).length ≤ limit := by
  intro upstream limit
  have he : get_stock_news (.ok upstream) limit = newsLoop (upstream.take limit) := rfl
  constructor
  · rw [he, newsLoop_eq_filter]
  · rw [he, newsLoop_eq_filter, List.length_map]
    exact le_trans (List.length_filter_le _ _) (List.length_take_le _ _)

/-- An upstream item with no usable title anywhere. -/
def rawUntitled : RawNewsItem := ⟨none, none, none, none, none⟩

/-- An upstream item titled "A". -/
def rawTitledA : RawNewsItem := ⟨some "A", none, none, none, none⟩

/-- An upstream item titled "B". -/
def rawTitledB : RawNewsItem := ⟨some "B", none, none, none, none⟩

/-- Counterexample to C3 as stated: with an untitled item in front and
`limit = 2`, the code returns one item while filtering-before-limiting would
return the first two titled items. -/
theorem stock_news_filter_after_limit_counterexample :
    get_stock_news (.ok [rawUntitled, rawTitledA, rawTitledB]) 2
      ≠ (([rawUntitled, rawTitledA, rawTitledB].filter
          (fun i => extractTitle i != "")).take 2).map mkNewsItem := by
  decide

/-- Every item produced by the extraction loop has a non-empty title. -/
theorem mem_newsLoop_title_ne (l : List RawNewsItem) :
    ∀ x ∈ newsLoop l, x.title ≠ "" := by
  induction l with
  | nil => simp [newsLoop]
  | cons item rest ih =>
    intro x hx
    cases h : extractTitle item == "" <;> simp only [newsLoop, h] at hx
    · rcases (by simpa using hx) with hx1 | hx2
      · subst hx1
        simpa [mkNewsItem] using h
      · exact ih x hx2
    · exact ih x hx

/-- C4 (amended): every `NewsItem` returned by `get_stock_news` has a
non-empty title (untitled items are discarded during the fetch); the general
news aggregator does not share this property. -/
theorem stock_news_titles_nonempty :
    ∀ upstream limit x, x ∈ get_stock_news upstream limit → x.title ≠ "" := by
  intro upstream limit x hx
  cases upstream with
  | error e => simp [get_stock_news] at hx
  | ok news => exact mem_newsLoop_title_ne _ x hx

/-- Witness for C4 at a one-item upstream list. -/
theorem stock_news_titles_nonempty_witness :
    mkNewsItem rawTitledA ∈ get_stock_news (.ok [rawTitledA]) 5 ∧
    (mkNewsItem rawTitledA).title ≠ "" :=
  ⟨by decide, stock_news_titles_nonempty (.ok [rawTitledA]) 5
    (mkNewsItem rawTitledA) (by decide)⟩

/-- A configured feed whose single entry has no title. -/
def untitledFeeds : List FeedSource :=
  [⟨"SrcA", .ok [⟨none, some "a.example", some "s"⟩]⟩]

/-- Counterexample to C4 as stated: `get_general_news` surfaces an item with
an empty title to the composer. -/
theorem general_news_empty_title_counterexample :
    ¬ (∀ x ∈ get_general_news untitledFeeds 8, x.title ≠ "") := by
  decide

/-! ## C7 — the watchlist store -/

/-- Modelled from the spec: the normalization it prescribes for symbols,
"uppercase, trim" (trim written over the character list so it reduces). -/
def specNormalize (s : String) : String :=
  strUpper (String.mk
    (((s.data.dropWhile (· == ' ')).reverse.dropWhile (· == ' ')).reverse))

/-- Counterexample to C7 as stated: the store uppercases but does not trim,
so upserting " aapl" stores the symbol " AAPL", which differs from the
normalized (trimmed, uppercased) form "AAPL". -/
theorem watchlist_no_trim_counterexample :
    (get_watchlist (add_to_watchlist [] "u" " aapl" "Apple" "01.01.2026")
        "u").map WLEntry.ticker = [" AAPL"] ∧
    " AAPL" ≠ specNormalize " aapl" := by
  constructor
  · decide
  · decide

/-- C7 (amended): the store normalizes symbols by uppercasing only (no
trim); after an upsert the owner's listing contains exactly one entry whose
symbol is the uppercased form of the given symbol, the listing is sorted by
symbol, and upserting "aapl" yields the single entry "AAPL". -/
theorem watchlist_upsert_unique_sorted :
    (∀ db u s name d,
      ((get_watchlist (add_to_watchlist db u s name d) u).countP
        (fun e => e.ticker == strUpper s)) = 1) ∧
    (∀ db u, (get_watchlist db u).Sorted
      (fun a b : WLEntry => a.ticker ≤ b.ticker)) ∧
    get_watchlist (add_to_watchlist [] "u" "aapl" "Apple" "01.01.2026") "u"
      = [⟨"AAPL", "Apple", "01.01.2026"⟩] := by
  refine ⟨?_, ?_, by decide⟩
  · intro db u s name d
    unfold get_watchlist
    rw [List.countP_map,
      (List.perm_insertionSort rowLE _).countP_eq]
    unfold add_to_watchlist
    rw [List.filter_append, List.countP_append]
    have hA : List.countP
        ((fun e : WLEntry => e.ticker == strUpper s) ∘
          fun r => (⟨r.ticker, r.name, r.added⟩ : WLEntry))
        ((db.filter
          (fun r => !(r.chat_id == u && r.ticker == strUpper s))).filter
            (fun r => r.chat_id == u)) = 0 := by
      rw [List.countP_eq_zero]
      intro r hr
      rw [List.mem_filter] at hr
      obtain ⟨hr1, hchat⟩ := hr
      rw [List.mem_filter] at hr1
      obtain ⟨_, hkey⟩ := hr1
      simp only [Function.comp_apply]
      simp only [hchat, Bool.not_eq_true', Bool.and_eq_false_iff] at hkey
      rcases hkey with h | h
      · exact absurd h (by simp)
      · simpa using h
    have hB : List.countP
        ((fun e : WLEntry => e.ticker == strUpper s) ∘
          fun r => (⟨r.ticker, r.name, r.added⟩ : WLEntry))
        (([(⟨u, strUpper s, name, d⟩ : Row)]).filter
          (fun r => r.chat_id == u)) = 1 := by
      simp [List.filter_cons, List.countP_cons]
    rw [hA, hB]
  · intro db u
    unfold get_watchlist
    exact List.Pairwise.map _ (fun a b h => h)
      (List.sorted_insertionSort rowLE _)

/-! ## C1 — report composition per symbol -/

/-- The quotes loop of `report_command` is a per-item map. -/
theorem reportQuoteBlocks_eq_map (fetch : String → Option StockQuote) :
    ∀ wl, reportQuoteBlocks fetch wl = wl.map (reportBlockFor fetch)
  | [] => rfl
  | item :: rest => by
    simp [reportQuoteBlocks, reportQuoteBlocks_eq_map fetch rest]

/-- A block is always about its own item's ticker. -/
theorem tickerOf_reportBlockFor (fetch : String → Option StockQuote)
    (item : WLEntry) : (reportBlockFor fetch item).tickerOf = item.ticker := by
  unfold reportBlockFor
  cases fetch item.ticker <;> rfl

/-- C1 (amended): in `report_command` the quotes section has exactly one
block per watchlist item, in input order — the `nicht verfügbar` marker
exactly when the quote fetch fails, a rendered block otherwise — and the
block at a position depends only on the fetch outcome for that position's
symbol (a failing symbol cannot change, remove, or reorder the others).  In
`daily_report`, by contrast, failing symbols are silently omitted: the
quotes lines are the `filterMap` of the successful fetches. -/
theorem report_blocks_per_symbol :
    (∀ fetch wl, (reportQuoteBlocks fetch wl).length = wl.length) ∧
    (∀ fetch wl (i : Nat), ((reportQuoteBlocks fetch wl)[i]?).map QuoteBlock.tickerOf
      = (wl[i]?).map WLEntry.ticker) ∧
    (∀ fetch wl (i : Nat) (item : WLEntry), wl[i]? = some item → fetch item.ticker = none →
      (reportQuoteBlocks fetch wl)[i]?
        = some (QuoteBlock.notAvailable item.ticker)) ∧
    (∀ fetch wl (i : Nat) (item : WLEntry) info, wl[i]? = some item →
      fetch item.ticker = some info →
      (reportQuoteBlocks fetch wl)[i]?
        = some (QuoteBlock.available info.name item.ticker
            (format_price info.price info.currency)
            (format_change info.change info.change_pct)
            (decide (0 ≤ info.change)))) ∧
    (∀ fetch fetch2 wl (i : Nat) (item : WLEntry), wl[i]? = some item →
      fetch item.ticker = fetch2 item.ticker →
      (reportQuoteBlocks fetch wl)[i]?
        = (reportQuoteBlocks fetch2 wl)[i]?) ∧
    (∀ fetch wl, dailyQuoteLines fetch wl
      = wl.filterMap (fun item => (fetch item.ticker).map dailyLine)) := by
  refine ⟨?_, ?_, ?_, ?_, ?_, ?_⟩
  · intro fetch wl
    rw [reportQuoteBlocks_eq_map, List.length_map]
  · intro fetch wl i
    rw [reportQuoteBlocks_eq_map, List.getElem?_map]
    cases wl[i]? <;> simp [tickerOf_reportBlockFor]
  · intro fetch wl i item hgi hf
    rw [reportQuoteBlocks_eq_map, List.getElem?_map, hgi]
    simp [reportBlockFor, hf]
  · intro fetch wl i item info hgi hf
    rw [reportQuoteBlocks_eq_map, List.getElem?_map, hgi]
    simp [reportBlockFor, hf]
  · intro fetch fetch2 wl i item hgi hf
    rw [reportQuoteBlocks_eq_map, reportQuoteBlocks_eq_map,
      List.getElem?_map, List.getElem?_map, hgi]
    have hrb : reportBlockFor fetch item = reportBlockFor fetch2 item := by
      unfold reportBlockFor
      rw [hf]
    simp only [Option.map_some', hrb]
  · intro fetch wl
    induction wl with
    | nil => rfl
    | cons item rest ih =>
      cases hf : fetch item.ticker <;>
        simp [dailyQuoteLines, List.filterMap_cons, hf, ih]

/-- A fetch function that fails exactly for the symbol "X". -/
def demoFetchX : String → Option StockQuote :=
  fun s => if s == "X" then none else some quoteApple

/-- A three-symbol watchlist whose middle symbol is the failing "X". -/
def demoWL3 : List WLEntry := [⟨"A", "a", "d"⟩, ⟨"X", "x", "d"⟩, ⟨"B", "b", "d"⟩]

/-- Witness for C1 at the failing middle symbol of `demoWL3`. -/
theorem report_blocks_per_symbol_witness :
    demoWL3[1]? = some ⟨"X", "x", "d"⟩ ∧
    demoFetchX "X" = none ∧
    (reportQuoteBlocks demoFetchX demoWL3)[1]?
      = some (QuoteBlock.notAvailable "X") :=
  ⟨rfl, rfl, report_blocks_per_symbol.2.2.1 demoFetchX demoWL3 1
    ⟨"X", "x", "d"⟩ rfl rfl⟩

/-- Counterexample to C1 as stated: in the scheduled daily report the
quotes message has only two lines for the three symbols of `demoWL3` — the
failing symbol "X" contributes no block and no `not available` marker. -/
theorem daily_report_drops_failed_symbol_counterexample :
    (dailyQuoteLines demoFetchX demoWL3).length ≠ demoWL3.length := by
  decide

end AktienBot

